import Mathlib

/-!
Verification of the configuration-resolution layer of `danztran/air`
(`runner/config.go`), shallowly embedded in Lean 4.

Conventions of the embedding:
* Go structs become Lean structures with the same field names.
* Go's `(T, error)` pairs become `Except String T` when a `nil` result
  accompanies every error, and explicit pairs (`T × Option String`)
  when the Go code can return a non-nil value together with an error
  (as `readConfigOrDefault` and `preprocess` do).
* The ambient process state read by the code — the `air_wd` environment
  variable, the current working directory, the home directory, which
  directories exist (for `os.Chdir`), the host OS, and the outcome of
  reading/unmarshalling a config file at a path (viper) — is packaged
  into an explicit `Env` value threaded through the functions.
* Helper functions that the file calls but that live elsewhere in the
  repository (`expandPath`, `cleanPath`, `adaptToVariousPlatforms`,
  `PlatformWindows`) are modelled from the spec, marked as such below.
* `github.com/imdario/mergo`'s `mergo.Merge(dst, src)` (no options) is
  embedded per its documented semantics: every field of `dst` holding
  the zero value of its type is filled from `src`, recursing through
  nested structs; non-zero fields of `dst` are kept.
-/

/-- Go `time.Duration` is an integer (nanoseconds); `Build.Delay` is `int`. -/
abbrev GoInt := Int

/-- The `build` section of the schema (`cfgBuild` in `config.go`). -/
structure CfgBuild where
  Cmd : String
  Bin : String
  FullBin : String
  Log : String
  IncludeExt : List String
  ExcludeDir : List String
  IncludeDir : List String
  ExcludeFile : List String
  Delay : GoInt
  StopOnError : Bool
  SendInterrupt : Bool
  KillDelay : GoInt
deriving Repr, DecidableEq

/-- The `log` section of the schema (`cfgLog` in `config.go`). -/
structure CfgLog where
  AddTime : Bool
deriving Repr, DecidableEq

/-- The `color` section of the schema (`cfgColor` in `config.go`). -/
structure CfgColor where
  Main : String
  Watcher : String
  Build : String
  Runner : String
  App : String
deriving Repr, DecidableEq

/-- The `misc` section of the schema (`cfgMisc` in `config.go`). -/
structure CfgMisc where
  CleanOnExit : Bool
deriving Repr, DecidableEq

/-- The root configuration entity (`config` in `config.go`). -/
structure Config where
  Root : String
  TmpDir : String
  Build : CfgBuild
  Color : CfgColor
  Log : CfgLog
  Misc : CfgMisc
deriving Repr, DecidableEq

/-- Modelled from the spec: the platform identifier constant for the
Windows branch of `defaultConfig` (declared elsewhere in the repository). -/
def PlatformWindows : String := "windows"

/-- Constant `dftTOML` from `config.go`. -/
def dftTOML : String := ".air.toml"

/-- Constant `dftYAML` from `config.go`. -/
def dftYAML : String := ".air.yaml"

/-- Constant `dftConf` from `config.go`. -/
def dftConf : String := ".air.conf"

/-- Constant `airWd` from `config.go`: the working-directory override
environment variable name. -/
def airWd : String := "air_wd"

/-- The ambient process state the Go code reads, made explicit. -/
structure Env where
  /-- Value of the `air_wd` environment variable; `""` means unset. -/
  airWdVal : String
  /-- The process's current working directory (`os.Getwd`). -/
  cwd : String
  /-- The home directory used for `~` expansion, if resolvable. -/
  home : Option String
  /-- Whether `os.Chdir` to the given directory succeeds. -/
  dirExists : String → Bool
  /-- `runtime.GOOS`. -/
  goos : String
  /-- Outcome of viper's `ReadInConfig` for the file at a path. -/
  viperRead : String → Except String Unit
  /-- Outcome of viper's `Unmarshal` of the file at a path into the
  schema; defined only when the read succeeded. -/
  viperUnmarshal : String → Except String Config

/-- `filepath.Join` of two components; the embedding joins with a slash
(the claims below never depend on the cleaning Join also performs). -/
def joinPath (a b : String) : String := a ++ "/" ++ b

/-- `strings.HasPrefix`, computed on the underlying character lists. -/
def strStartsWith (s pre : String) : Bool := pre.data.isPrefixOf s.data

/-- `strings.HasSuffix`, computed on the underlying character lists. -/
def strEndsWith (s suf : String) : Bool := suf.data.isSuffixOf s.data

/-- Drop the first `n` characters of a string. -/
def strDrop (s : String) (n : Nat) : String := ⟨s.data.drop n⟩

/-- Drop the last `n` characters of a string. -/
def strDropRight (s : String) (n : Nat) : String :=
  ⟨s.data.take (s.data.length - n)⟩

/-- `defaultConfig` from `config.go`, parameterized by `runtime.GOOS`. -/
def defaultConfig (goos : String) : Config :=
  let build : CfgBuild :=
    { Cmd := "go build -o ./tmp/main ."
      Bin := "./tmp/main"
      FullBin := ""
      Log := "build-errors.log"
      IncludeExt := ["go", "tpl", "tmpl", "html"]
      ExcludeDir := ["assets", "tmp", "vendor"]
      IncludeDir := []
      ExcludeFile := []
      Delay := 1000
      StopOnError := true
      SendInterrupt := false
      KillDelay := 0 }
  let build :=
    if goos = PlatformWindows then
      { build with Bin := "tmp\\main.exe", Cmd := "go build -o ./tmp/main.exe ." }
    else build
  { Root := "."
    TmpDir := "tmp"
    Build := build
    Color :=
      { Main := "magenta"
        Watcher := "cyan"
        Build := "yellow"
        Runner := "green"
        App := "" }
    Log := { AddTime := false }
    Misc := { CleanOnExit := false } }

/-- The all-zero-values configuration: what viper's `Unmarshal` leaves in
fields absent from the source file (Go zero values). -/
def zeroConfig : Config :=
  { Root := ""
    TmpDir := ""
    Build :=
      { Cmd := ""
        Bin := ""
        FullBin := ""
        Log := ""
        IncludeExt := []
        ExcludeDir := []
        IncludeDir := []
        ExcludeFile := []
        Delay := 0
        StopOnError := false
        SendInterrupt := false
        KillDelay := 0 }
    Color := { Main := "", Watcher := "", Build := "", Runner := "", App := "" }
    Log := { AddTime := false }
    Misc := { CleanOnExit := false } }

/-- mergo: a zero string in `dst` is filled from `src`. -/
def mergeStr (dst src : String) : String := if dst = "" then src else dst

/-- mergo: a zero integer in `dst` is filled from `src`. -/
def mergeInt (dst src : GoInt) : GoInt := if dst = 0 then src else dst

/-- mergo: a `false` boolean in `dst` (the zero value) is filled from `src`. -/
def mergeBool (dst src : Bool) : Bool := if dst = false then src else dst

/-- mergo: an empty slice in `dst` is filled from `src`. -/
def mergeListStr (dst src : List String) : List String := if dst = [] then src else dst

/-- mergo recursion into `cfgBuild`. -/
def mergeBuild (dst src : CfgBuild) : CfgBuild :=
  { Cmd := mergeStr dst.Cmd src.Cmd
    Bin := mergeStr dst.Bin src.Bin
    FullBin := mergeStr dst.FullBin src.FullBin
    Log := mergeStr dst.Log src.Log
    IncludeExt := mergeListStr dst.IncludeExt src.IncludeExt
    ExcludeDir := mergeListStr dst.ExcludeDir src.ExcludeDir
    IncludeDir := mergeListStr dst.IncludeDir src.IncludeDir
    ExcludeFile := mergeListStr dst.ExcludeFile src.ExcludeFile
    Delay := mergeInt dst.Delay src.Delay
    StopOnError := mergeBool dst.StopOnError src.StopOnError
    SendInterrupt := mergeBool dst.SendInterrupt src.SendInterrupt
    KillDelay := mergeInt dst.KillDelay src.KillDelay }

/-- mergo recursion into `cfgColor`. -/
def mergeColor (dst src : CfgColor) : CfgColor :=
  { Main := mergeStr dst.Main src.Main
    Watcher := mergeStr dst.Watcher src.Watcher
    Build := mergeStr dst.Build src.Build
    Runner := mergeStr dst.Runner src.Runner
    App := mergeStr dst.App src.App }

/-- mergo recursion into `cfgLog`. -/
def mergeLog (dst src : CfgLog) : CfgLog :=
  { AddTime := mergeBool dst.AddTime src.AddTime }

/-- mergo recursion into `cfgMisc`. -/
def mergeMisc (dst src : CfgMisc) : CfgMisc :=
  { CleanOnExit := mergeBool dst.CleanOnExit src.CleanOnExit }

/-- `mergo.Merge(cfg, defaultConfig())` as called in `initConfig`:
fill every zero-valued field of `dst` from `src`, recursing through the
nested sections. -/
def mergeConfig (dst src : Config) : Config :=
  { Root := mergeStr dst.Root src.Root
    TmpDir := mergeStr dst.TmpDir src.TmpDir
    Build := mergeBuild dst.Build src.Build
    Color := mergeColor dst.Color src.Color
    Log := mergeLog dst.Log src.Log
    Misc := mergeMisc dst.Misc src.Misc }

/-- `readConfig` from `config.go`: viper read, then unmarshal, wrapping
each failure with its context string. -/
def readConfig (env : Env) (path : String) : Except String Config :=
  match env.viperRead path with
  | .error e => .error ("error read config / " ++ e)
  | .ok _ =>
    match env.viperUnmarshal path with
    | .error e => .error ("error parse config / " ++ e)
    | .ok cfg => .ok cfg

/-- `readConfByName` from `config.go`: resolve the probe directory from
the `air_wd` environment variable (falling back to the current working
directory), join the candidate name onto it, and read. -/
def readConfByName (env : Env) (name : String) : Except String Config :=
  let path :=
    if env.airWdVal ≠ "" then joinPath env.airWdVal name
    else joinPath env.cwd name
  readConfig env path

/-- `readConfigOrDefault` from `config.go`: on failure the default
configuration is returned **together with** the error (Go returns a
non-nil `*config` and a non-nil `error`). -/
def readConfigOrDefault (env : Env) (path : String) : Config × Option String :=
  match readConfig env path with
  | .error e => (defaultConfig env.goos, some e)
  | .ok cfg => (cfg, none)

/-- The loop body of `defaultPathConfig`: return the first candidate
name that reads successfully. -/
def probeFirst (env : Env) : List String → Option Config
  | [] => none
  | n :: ns =>
    match readConfByName env n with
    | .ok cfg => some cfg
    | .error _ => probeFirst env ns

/-- `defaultPathConfig` from `config.go`: probe `dftYAML`, `dftTOML`,
`dftConf` in that order; fall back to `defaultConfig()`. (The
deprecation notice printed for `dftConf` is an I/O side effect the
embedding drops.) -/
def defaultPathConfig (env : Env) : Except String Config :=
  match probeFirst env [dftYAML, dftTOML, dftConf] with
  | some cfg => .ok cfg
  | none => .ok (defaultConfig env.goos)

/-- The working directory in effect after `preprocess`'s `os.Chdir`:
`air_wd` when that variable is set, the original one otherwise. -/
def effCwd (env : Env) : String :=
  if env.airWdVal ≠ "" then env.airWdVal else env.cwd

/-- Modelled from the spec: `expandPath` (Path Resolver, defined
elsewhere in the repository) expands a leading home-directory shorthand
and resolves a relative path to an absolute one against the current
working directory, failing when the home directory is unresolvable.
On failure Go's convention returns the zero string alongside the error. -/
def expandPath (cwd : String) (home : Option String) (p : String) : Except String String :=
  if strStartsWith p "~/" then
    match home with
    | none => .error "cannot resolve home directory"
    | some h => .ok (h ++ strDrop p 1)
  else if p = "." then .ok cwd
  else if strStartsWith p "/" then .ok p
  else .ok (joinPath cwd p)

/-- Modelled from the spec: `cleanPath` (Path Resolver, defined
elsewhere in the repository) puts a path entry into canonical form for
comparison; per the spec, `"./vendor/"` and `"vendor"` clean to the
same form. -/
def cleanPath (p : String) : String :=
  let p1 := if strStartsWith p "./" then strDrop p 2 else p
  if strEndsWith p1 "/" && p1 ≠ "/" then strDropRight p1 1 else p1

/-- Modelled from the spec: `adaptToVariousPlatforms` (defined
elsewhere in the repository) applies host-OS corrections; on Windows a
relative binary path of the form `./x` is rewritten into an OS-native
form (backslash separators). Non-Windows hosts are untouched, and only
`build.bin` is adjusted. -/
def adaptToVariousPlatforms (goos : String) (c : Config) : Config :=
  if goos = PlatformWindows then
    let b := c.Build.Bin
    let b := if strStartsWith b "./" then strDrop b 2 else b
    let b : String := ⟨b.data.map (fun ch => if ch = '/' then '\\' else ch)⟩
    { c with Build := { c.Build with Bin := b } }
  else c

/-- `filepath.Abs`: already-absolute paths pass through; relative ones
are joined onto the current working directory. (Go also cleans the
result; the claims below do not depend on that.) -/
def absPath (cwd p : String) : String :=
  if strStartsWith p "/" then p else joinPath cwd p

/-- Source line `c.Root = cwd` guarded by `cwd != ""` (`preprocess`). -/
def stepWdOverride (env : Env) (c : Config) : Config :=
  if env.airWdVal ≠ "" then { c with Root := env.airWdVal } else c

/-- Source line `c.Root, err = expandPath(c.Root)` (`preprocess`): both
assignment and saved error; on failure the assigned root is the zero
string Go's convention returns beside an error. -/
def stepExpandRoot (cwd : String) (home : Option String) (c : Config) :
    Config × Option String :=
  match expandPath cwd home c.Root with
  | .ok r => ({ c with Root := r }, none)
  | .error e => ({ c with Root := "" }, some e)

/-- Source lines `if c.TmpDir == "" { c.TmpDir = "tmp" }` (`preprocess`). -/
def stepTmpDir (c : Config) : Config :=
  if c.TmpDir = "" then { c with TmpDir := "tmp" } else c

/-- Source lines cleaning every `build.exclude_dir` entry (`preprocess`). -/
def stepExcludeDir (c : Config) : Config :=
  { c with Build := { c.Build with ExcludeDir := c.Build.ExcludeDir.map cleanPath } }

/-- Source lines deciding `build.bin` (`preprocess`): the FullBin
short-circuit (`len(c.Build.FullBin) > 0`), else `filepath.Abs`. -/
def stepBin (cwd : String) (c : Config) : Config :=
  if 0 < c.Build.FullBin.length then
    { c with Build := { c.Build with Bin := c.Build.FullBin } }
  else
    { c with Build := { c.Build with Bin := absPath cwd c.Build.Bin } }

/-- `(*config).preprocess` from `config.go`, as a function from the
pre-merge state to the mutated state plus the returned error, composed
of the steps above in the source's statement order. The Go method
mutates `c` in place and can return early, so the first component is
the state of `c` at the point of return. -/
def preprocess (env : Env) (c : Config) : Config × Option String :=
  if env.airWdVal ≠ "" && !(env.dirExists env.airWdVal) then
    -- os.Chdir failed: return its error before touching c
    (c, some "chdir failed")
  else
    let c := stepWdOverride env c
    let cwd := effCwd env
    let r := stepExpandRoot cwd env.home c
    let c := stepTmpDir r.1
    match r.2 with
    | some e => (c, some e)
    | none =>
      let c := stepExcludeDir c
      let c := adaptToVariousPlatforms env.goos c
      (stepBin cwd c, none)

/-- `initConfig` from `config.go`. Go returns `(cfg *config, err error)`;
the embedding returns both values, with `none` for a nil `cfg`.
`mergo.Merge`'s error return is always nil here (the two arguments have
the same static type), so that branch is not represented. -/
def initConfig (env : Env) (path : String) : Option Config × Option String :=
  match
    (if path = "" then
      match defaultPathConfig env with
      | .error e => .error e
      | .ok cfg => .ok cfg
    else
      match readConfigOrDefault env path with
      | (_, some e) => .error e
      | (cfg, none) => .ok cfg : Except String Config)
  with
  | .error e => (none, some e)
  | .ok cfg =>
    let merged := mergeConfig cfg (defaultConfig env.goos)
    let (c, err) := preprocess env merged
    (some c, err)

/-- `(*config).colorInfo` from `config.go`: the Go map literal, embedded
as an association list. -/
def colorInfo (c : Config) : List (String × String) :=
  [("main", c.Color.Main),
   ("build", c.Color.Build),
   ("runner", c.Color.Runner),
   ("watcher", c.Color.Watcher)]

/-- Splitting a character list on `/`, dropping empty components; `cur`
accumulates the current component reversed. -/
def splitChars : List Char → List Char → List String
  | cur, [] => if cur = [] then [] else [⟨cur.reverse⟩]
  | cur, ch :: rest =>
    if ch = '/' then
      if cur = [] then splitChars [] rest
      else ⟨cur.reverse⟩ :: splitChars [] rest
    else splitChars (ch :: cur) rest

/-- Path elements: split on the separator, dropping empty components. -/
def splitPath (p : String) : List String :=
  splitChars [] p.data

/-- Lexical resolution of `.` and `..` elements, as `filepath.Clean`
does: `..` pops a previous element; at the top it is kept for relative
paths and dropped for absolute ones. -/
def normElems (isAbs : Bool) : List String → List String → List String
  | acc, [] => acc.reverse
  | acc, e :: es =>
    if e = "." then normElems isAbs acc es
    else if e = ".." then
      match acc with
      | [] => if isAbs then normElems isAbs [] es else normElems isAbs [".."] es
      | a :: rest =>
        if a = ".." then normElems isAbs (".." :: a :: rest) es
        else normElems isAbs rest es
    else normElems isAbs (e :: acc) es

/-- Drop the longest common leading run of two element lists. -/
def dropCommon : List String → List String → List String × List String
  | a :: as, b :: bs =>
    if a = b then dropCommon as bs else (a :: as, b :: bs)
  | as, bs => (as, bs)

/-- Join path elements with the separator. -/
def joinElems : List String → String
  | [] => ""
  | [e] => e
  | e :: es => e ++ "/" ++ joinElems es

/-- Go's `filepath.Rel(basepath, targpath)` (path/filepath, Unix
separator): both paths must agree on absoluteness; after cleaning and
stripping the common leading elements, the remaining base elements must
contain no `..`; the result climbs out of the base remainder and
descends into the target remainder. -/
def goRel (base targ : String) : Except String String :=
  let bAbs := strStartsWith base "/"
  let tAbs := strStartsWith targ "/"
  if bAbs ≠ tAbs then
    .error ("Rel: cannot make " ++ targ ++ " relative to " ++ base)
  else
    let bs := normElems bAbs [] (splitPath base)
    let ts := normElems tAbs [] (splitPath targ)
    let (br, tr) := dropCommon bs ts
    if br.contains ".." then
      .error ("Rel: cannot make " ++ targ ++ " relative to " ++ base)
    else
      let parts := List.replicate br.length ".." ++ tr
      if parts = [] then .ok "." else .ok (joinElems parts)

/-- `(*config).rel` from `config.go`: `filepath.Rel(c.Root, path)`,
degrading to the empty string when that fails. -/
def rel (c : Config) (path : String) : String :=
  match goRel c.Root path with
  | .error _ => ""
  | .ok s => s

/-- The spec's description of discovery (for the refinement claim):
return the configuration from the first of the three conventional
names — YAML-style, then TOML-style, then the legacy extension-less
name — that parses successfully, else the Default Provider's output. -/
def discoverySpec (env : Env) : Config :=
  match readConfByName env dftYAML with
  | .ok cfg => cfg
  | .error _ =>
    match readConfByName env dftTOML with
    | .ok cfg => cfg
    | .error _ =>
      match readConfByName env dftConf with
      | .ok cfg => cfg
      | .error _ => defaultConfig env.goos

/-! ### Concrete inputs used by counterexamples and witnesses -/

/-- A loaded configuration whose only non-zero field is a relative
`root`. -/
def loadedSub : Config := { zeroConfig with Root := "sub" }

/-- A loaded configuration whose only non-zero field is
`build.cmd = "make"` (the spec's merge-precedence example). -/
def onlyCmdCfg : Config :=
  { zeroConfig with Build := { zeroConfig.Build with Cmd := "make" } }

/-- An environment on a Unix host, cwd `/proj`, no `air_wd`, where the
single file `cfg.toml` parses to `loadedSub`. -/
def envProj : Env :=
  { airWdVal := ""
    cwd := "/proj"
    home := some "/home/u"
    dirExists := fun _ => true
    goos := "linux"
    viperRead := fun p => if p = "cfg.toml" then .ok () else .error "no such file"
    viperUnmarshal := fun p => if p = "cfg.toml" then .ok loadedSub else .error "no such file" }

/-- An environment in which no file can be read at all. -/
def envNoFile : Env :=
  { airWdVal := ""
    cwd := "/proj"
    home := some "/home/u"
    dirExists := fun _ => true
    goos := "linux"
    viperRead := fun _ => .error "no such file"
    viperUnmarshal := fun _ => .error "no such file" }

/-- An environment with `air_wd` set to `/work` (an existing directory),
where no config file can be read. -/
def envWd : Env :=
  { envNoFile with airWdVal := "/work", dirExists := fun p => p = "/work" }

/-- A configuration to feed `preprocess` directly in witnesses: defaults
with a `full_bin` override and an empty `tmp_dir`. -/
def cfgFullBin : Config :=
  { defaultConfig "linux" with
    TmpDir := ""
    Build := { (defaultConfig "linux").Build with FullBin := "/custom/path" } }

/-! ## Helper lemmas shared by the claim theorems -/

theorem str_len_pos (s : String) (h : s ≠ "") : 0 < s.length := by
  cases s with
  | mk data =>
    cases data with
    | nil => exact absurd rfl h
    | cons a as => simp [String.length]

@[simp] theorem adapt_Root (goos : String) (c : Config) :
    (adaptToVariousPlatforms goos c).Root = c.Root := by
  unfold adaptToVariousPlatforms; split <;> rfl

@[simp] theorem adapt_TmpDir (goos : String) (c : Config) :
    (adaptToVariousPlatforms goos c).TmpDir = c.TmpDir := by
  unfold adaptToVariousPlatforms; split <;> rfl

@[simp] theorem adapt_FullBin (goos : String) (c : Config) :
    (adaptToVariousPlatforms goos c).Build.FullBin = c.Build.FullBin := by
  unfold adaptToVariousPlatforms; split <;> rfl

@[simp] theorem adapt_Cmd (goos : String) (c : Config) :
    (adaptToVariousPlatforms goos c).Build.Cmd = c.Build.Cmd := by
  unfold adaptToVariousPlatforms; split <;> rfl

@[simp] theorem adapt_Delay (goos : String) (c : Config) :
    (adaptToVariousPlatforms goos c).Build.Delay = c.Build.Delay := by
  unfold adaptToVariousPlatforms; split <;> rfl

@[simp] theorem adapt_StopOnError (goos : String) (c : Config) :
    (adaptToVariousPlatforms goos c).Build.StopOnError = c.Build.StopOnError := by
  unfold adaptToVariousPlatforms; split <;> rfl

@[simp] theorem adapt_Color (goos : String) (c : Config) :
    (adaptToVariousPlatforms goos c).Color = c.Color := by
  unfold adaptToVariousPlatforms; split <;> rfl

@[simp] theorem adapt_Log (goos : String) (c : Config) :
    (adaptToVariousPlatforms goos c).Log = c.Log := by
  unfold adaptToVariousPlatforms; split <;> rfl

@[simp] theorem adapt_Misc (goos : String) (c : Config) :
    (adaptToVariousPlatforms goos c).Misc = c.Misc := by
  unfold adaptToVariousPlatforms; split <;> rfl

@[simp] theorem stepWdOverride_TmpDir (env : Env) (c : Config) :
    (stepWdOverride env c).TmpDir = c.TmpDir := by
  unfold stepWdOverride; split <;> rfl

@[simp] theorem stepWdOverride_Build (env : Env) (c : Config) :
    (stepWdOverride env c).Build = c.Build := by
  unfold stepWdOverride; split <;> rfl

@[simp] theorem stepWdOverride_Color (env : Env) (c : Config) :
    (stepWdOverride env c).Color = c.Color := by
  unfold stepWdOverride; split <;> rfl

@[simp] theorem stepWdOverride_Log (env : Env) (c : Config) :
    (stepWdOverride env c).Log = c.Log := by
  unfold stepWdOverride; split <;> rfl

@[simp] theorem stepWdOverride_Misc (env : Env) (c : Config) :
    (stepWdOverride env c).Misc = c.Misc := by
  unfold stepWdOverride; split <;> rfl

theorem stepWdOverride_Root_set (env : Env) (c : Config)
    (h : env.airWdVal ≠ "") : (stepWdOverride env c).Root = env.airWdVal := by
  unfold stepWdOverride
  rw [if_pos h]

@[simp] theorem stepExpandRoot_TmpDir (cwd : String) (home : Option String) (c : Config) :
    (stepExpandRoot cwd home c).1.TmpDir = c.TmpDir := by
  unfold stepExpandRoot; split <;> rfl

@[simp] theorem stepExpandRoot_Build (cwd : String) (home : Option String) (c : Config) :
    (stepExpandRoot cwd home c).1.Build = c.Build := by
  unfold stepExpandRoot; split <;> rfl

@[simp] theorem stepExpandRoot_Color (cwd : String) (home : Option String) (c : Config) :
    (stepExpandRoot cwd home c).1.Color = c.Color := by
  unfold stepExpandRoot; split <;> rfl

@[simp] theorem stepExpandRoot_Log (cwd : String) (home : Option String) (c : Config) :
    (stepExpandRoot cwd home c).1.Log = c.Log := by
  unfold stepExpandRoot; split <;> rfl

@[simp] theorem stepExpandRoot_Misc (cwd : String) (home : Option String) (c : Config) :
    (stepExpandRoot cwd home c).1.Misc = c.Misc := by
  unfold stepExpandRoot; split <;> rfl

theorem stepExpandRoot_of_ok (cwd : String) (home : Option String) (c : Config)
    (r : String) (h : expandPath cwd home c.Root = .ok r) :
    stepExpandRoot cwd home c = ({ c with Root := r }, none) := by
  unfold stepExpandRoot
  rw [h]

theorem stepExpandRoot_of_err (cwd : String) (home : Option String) (c : Config)
    (e : String) (h : expandPath cwd home c.Root = .error e) :
    stepExpandRoot cwd home c = ({ c with Root := "" }, some e) := by
  unfold stepExpandRoot
  rw [h]

theorem stepExpandRoot_snd_none (cwd : String) (home : Option String) (c : Config)
    (h : (stepExpandRoot cwd home c).2 = none) :
    expandPath cwd home c.Root = .ok ((stepExpandRoot cwd home c).1.Root) := by
  cases hE : expandPath cwd home c.Root with
  | ok r => simp [stepExpandRoot, hE]
  | error e => simp [stepExpandRoot, hE] at h

@[simp] theorem stepTmpDir_Root (c : Config) : (stepTmpDir c).Root = c.Root := by
  unfold stepTmpDir; split <;> rfl

@[simp] theorem stepTmpDir_Build (c : Config) : (stepTmpDir c).Build = c.Build := by
  unfold stepTmpDir; split <;> rfl

@[simp] theorem stepTmpDir_Color (c : Config) : (stepTmpDir c).Color = c.Color := by
  unfold stepTmpDir; split <;> rfl

@[simp] theorem stepTmpDir_Log (c : Config) : (stepTmpDir c).Log = c.Log := by
  unfold stepTmpDir; split <;> rfl

@[simp] theorem stepTmpDir_Misc (c : Config) : (stepTmpDir c).Misc = c.Misc := by
  unfold stepTmpDir; split <;> rfl

theorem stepTmpDir_ne (c : Config) : (stepTmpDir c).TmpDir ≠ "" := by
  unfold stepTmpDir
  split
  · simp
  next h => exact h

theorem stepTmpDir_of_empty (c : Config) (h : c.TmpDir = "") :
    (stepTmpDir c).TmpDir = "tmp" := by
  unfold stepTmpDir
  rw [if_pos h]

@[simp] theorem stepExcludeDir_Root (c : Config) : (stepExcludeDir c).Root = c.Root := rfl

@[simp] theorem stepExcludeDir_TmpDir (c : Config) : (stepExcludeDir c).TmpDir = c.TmpDir := rfl

@[simp] theorem stepExcludeDir_Cmd (c : Config) :
    (stepExcludeDir c).Build.Cmd = c.Build.Cmd := rfl

@[simp] theorem stepExcludeDir_Bin (c : Config) :
    (stepExcludeDir c).Build.Bin = c.Build.Bin := rfl

@[simp] theorem stepExcludeDir_FullBin (c : Config) :
    (stepExcludeDir c).Build.FullBin = c.Build.FullBin := rfl

@[simp] theorem stepExcludeDir_Delay (c : Config) :
    (stepExcludeDir c).Build.Delay = c.Build.Delay := rfl

@[simp] theorem stepExcludeDir_StopOnError (c : Config) :
    (stepExcludeDir c).Build.StopOnError = c.Build.StopOnError := rfl

@[simp] theorem stepExcludeDir_Color (c : Config) : (stepExcludeDir c).Color = c.Color := rfl

@[simp] theorem stepExcludeDir_Log (c : Config) : (stepExcludeDir c).Log = c.Log := rfl

@[simp] theorem stepExcludeDir_Misc (c : Config) : (stepExcludeDir c).Misc = c.Misc := rfl

@[simp] theorem stepBin_Root (cwd : String) (c : Config) :
    (stepBin cwd c).Root = c.Root := by
  unfold stepBin; split <;> rfl

@[simp] theorem stepBin_TmpDir (cwd : String) (c : Config) :
    (stepBin cwd c).TmpDir = c.TmpDir := by
  unfold stepBin; split <;> rfl

@[simp] theorem stepBin_Cmd (cwd : String) (c : Config) :
    (stepBin cwd c).Build.Cmd = c.Build.Cmd := by
  unfold stepBin; split <;> rfl

@[simp] theorem stepBin_FullBin (cwd : String) (c : Config) :
    (stepBin cwd c).Build.FullBin = c.Build.FullBin := by
  unfold stepBin; split <;> rfl

@[simp] theorem stepBin_Delay (cwd : String) (c : Config) :
    (stepBin cwd c).Build.Delay = c.Build.Delay := by
  unfold stepBin; split <;> rfl

@[simp] theorem stepBin_StopOnError (cwd : String) (c : Config) :
    (stepBin cwd c).Build.StopOnError = c.Build.StopOnError := by
  unfold stepBin; split <;> rfl

@[simp] theorem stepBin_Color (cwd : String) (c : Config) :
    (stepBin cwd c).Color = c.Color := by
  unfold stepBin; split <;> rfl

@[simp] theorem stepBin_Log (cwd : String) (c : Config) :
    (stepBin cwd c).Log = c.Log := by
  unfold stepBin; split <;> rfl

@[simp] theorem stepBin_Misc (cwd : String) (c : Config) :
    (stepBin cwd c).Misc = c.Misc := by
  unfold stepBin; split <;> rfl

theorem stepBin_of_fullBin (cwd : String) (c : Config) (h : c.Build.FullBin ≠ "") :
    (stepBin cwd c).Build.Bin = c.Build.FullBin := by
  unfold stepBin
  rw [if_pos (str_len_pos _ h)]

/-- `preprocess` with its `let` chain written out, for case analysis. -/
theorem preprocess_eq (env : Env) (c : Config) :
    preprocess env c =
      if env.airWdVal ≠ "" && !(env.dirExists env.airWdVal) then
        (c, some "chdir failed")
      else
        match (stepExpandRoot (effCwd env) env.home (stepWdOverride env c)).2 with
        | some e =>
          (stepTmpDir (stepExpandRoot (effCwd env) env.home (stepWdOverride env c)).1, some e)
        | none =>
          (stepBin (effCwd env)
            (adaptToVariousPlatforms env.goos
              (stepExcludeDir
                (stepTmpDir (stepExpandRoot (effCwd env) env.home (stepWdOverride env c)).1))),
           none) := rfl

/-- `defaultConfig` enables stop-on-error on every platform. -/
theorem defaultConfig_StopOnError (goos : String) :
    (defaultConfig goos).Build.StopOnError = true := by
  unfold defaultConfig
  split <;> rfl

/-- `defaultConfig` keeps delay 1000 on every platform. -/
theorem defaultConfig_Delay (goos : String) :
    (defaultConfig goos).Build.Delay = 1000 := by
  unfold defaultConfig
  split <;> rfl

theorem preprocess_Cmd (env : Env) (c : Config) :
    (preprocess env c).1.Build.Cmd = c.Build.Cmd := by
  rw [preprocess_eq]
  split
  · rfl
  · cases (stepExpandRoot (effCwd env) env.home (stepWdOverride env c)).2 <;> simp

theorem preprocess_Delay (env : Env) (c : Config) :
    (preprocess env c).1.Build.Delay = c.Build.Delay := by
  rw [preprocess_eq]
  split
  · rfl
  · cases (stepExpandRoot (effCwd env) env.home (stepWdOverride env c)).2 <;> simp

theorem preprocess_StopOnError (env : Env) (c : Config) :
    (preprocess env c).1.Build.StopOnError = c.Build.StopOnError := by
  rw [preprocess_eq]
  split
  · rfl
  · cases (stepExpandRoot (effCwd env) env.home (stepWdOverride env c)).2 <;> simp

/-! ## Claim theorems -/

/-- C10: for every configuration, `colorInfo` returns a table with
exactly the keys "main", "build", "runner", "watcher", each mapped to
the corresponding configured color tag, and the fifth declared surface
"app" is never present. -/
theorem C10_colorInfo_complete (c : Config) :
    (colorInfo c).map Prod.fst = ["main", "build", "runner", "watcher"] ∧
    (colorInfo c).lookup "main" = some c.Color.Main ∧
    (colorInfo c).lookup "build" = some c.Color.Build ∧
    (colorInfo c).lookup "runner" = some c.Color.Runner ∧
    (colorInfo c).lookup "watcher" = some c.Color.Watcher ∧
    (colorInfo c).lookup "app" = none := by
  refine ⟨rfl, ?_, ?_, ?_, ?_, ?_⟩ <;> simp [colorInfo, List.lookup]

/-- C9: for every configuration and input path, `rel` returns the path
made relative to root when `filepath.Rel` succeeds, and the empty
string on its failure instead of propagating the error. -/
theorem C9_rel_best_effort (c : Config) (p : String) :
    (match goRel c.Root p with
      | .ok s => rel c p = s
      | .error _ => rel c p = "") := by
  cases h : goRel c.Root p <;> simp [rel, h]

/-- C2: at a non-empty explicit path whose load fails,
`readConfigOrDefault` does fall back to the default configuration and
returns it together with the error, but `initConfig` discards that
fallback: it hands the caller no configuration at all (`none`, Go
`nil`) beside the error, contradicting the claim. -/
theorem C2_initConfig_drops_default_on_load_failure :
    readConfigOrDefault envNoFile "missing.toml"
      = (defaultConfig "linux", some "error read config / no such file") ∧
    initConfig envNoFile "missing.toml"
      = (none, some "error read config / no such file") :=
  ⟨rfl, rfl⟩

/-- C4: discovery probes exactly the three conventional names
`.air.yaml`, `.air.toml`, `.air.conf` in that fixed order and returns
the configuration from the first that parses, falling back to the
defaults: `defaultPathConfig` equals the spec's ordered first-success
description, so in particular a parsing YAML-named file wins over a
parsing TOML-named one. -/
theorem C4_discovery_priority (env : Env) :
    defaultPathConfig env = .ok (discoverySpec env) := by
  unfold defaultPathConfig discoverySpec
  cases hy : readConfByName env dftYAML with
  | ok cy => simp [probeFirst, hy]
  | error ey =>
    cases ht : readConfByName env dftTOML with
    | ok ct => simp [probeFirst, hy, ht]
    | error et =>
      cases hc : readConfByName env dftConf with
      | ok cc => simp [probeFirst, hy, ht, hc]
      | error ec => simp [probeFirst, hy, ht, hc]

/-- C5: with an empty explicit path, when none of the three
conventional names parses, discovery returns the pure Default Provider
configuration and no error. -/
theorem C5_graceful_fallback (env : Env)
    (hy : ∃ e, readConfByName env dftYAML = .error e)
    (ht : ∃ e, readConfByName env dftTOML = .error e)
    (hc : ∃ e, readConfByName env dftConf = .error e) :
    defaultPathConfig env = .ok (defaultConfig env.goos) := by
  obtain ⟨ey, hy⟩ := hy
  obtain ⟨et, ht⟩ := ht
  obtain ⟨ec, hc⟩ := hc
  simp [defaultPathConfig, probeFirst, hy, ht, hc]

/-- C5 witness: in an environment where no file reads, discovery yields
the defaults with no error. -/
theorem C5_graceful_fallback_witness :
    defaultPathConfig envNoFile = .ok (defaultConfig envNoFile.goos) :=
  C5_graceful_fallback envNoFile ⟨_, rfl⟩ ⟨_, rfl⟩ ⟨_, rfl⟩

/-- C3: for every configuration with a non-empty `build.full_bin`, a
completed `preprocess` leaves `build.bin` equal to that `full_bin`
string exactly, whatever `build.bin` held before; the absolute-path
conversion is bypassed. -/
theorem C3_fullBin_short_circuit (env : Env) (c : Config)
    (hfb : c.Build.FullBin ≠ "") (h : (preprocess env c).2 = none) :
    (preprocess env c).1.Build.Bin = c.Build.FullBin := by
  rw [preprocess_eq] at h ⊢
  split at h
  · simp at h
  next hcond =>
    rw [if_neg hcond]
    cases hr : (stepExpandRoot (effCwd env) env.home (stepWdOverride env c)).2 with
    | some e => rw [hr] at h; simp at h
    | none =>
      dsimp only
      rw [stepBin_of_fullBin _ _ (by simp [hfb])]
      simp

/-- C3 witness: defaults with `full_bin = "/custom/path"` finalize with
`build.bin = "/custom/path"`. -/
theorem C3_fullBin_short_circuit_witness :
    cfgFullBin.Build.FullBin ≠ "" ∧ (preprocess envProj cfgFullBin).2 = none ∧
    (preprocess envProj cfgFullBin).1.Build.Bin = cfgFullBin.Build.FullBin :=
  ⟨by decide, by rfl, C3_fullBin_short_circuit envProj cfgFullBin (by decide) (by rfl)⟩

/-- C6: when the `air_wd` environment variable holds a non-empty
directory `d`, a completed `preprocess` ends with `root` equal to the
path expansion of `d`, whatever `root` the merged configuration held
(the override is applied before root expansion). -/
theorem C6_working_dir_override (env : Env) (c : Config)
    (hd : env.airWdVal ≠ "") (h : (preprocess env c).2 = none) :
    expandPath (effCwd env) env.home env.airWdVal
      = .ok ((preprocess env c).1.Root) := by
  rw [preprocess_eq] at h ⊢
  split at h
  · simp at h
  next hcond =>
    rw [if_neg hcond]
    cases hr : (stepExpandRoot (effCwd env) env.home (stepWdOverride env c)).2 with
    | some e => rw [hr] at h; simp at h
    | none =>
      dsimp only
      have hroot := stepExpandRoot_snd_none _ _ _ hr
      rw [stepWdOverride_Root_set env c hd] at hroot
      rw [hroot]
      simp

/-- C6 witness: with `air_wd = "/work"`, the finalized root is the
expansion of `/work`. -/
theorem C6_working_dir_override_witness :
    envWd.airWdVal ≠ "" ∧ (preprocess envWd (defaultConfig "linux")).2 = none ∧
    expandPath (effCwd envWd) envWd.home envWd.airWdVal
      = .ok ((preprocess envWd (defaultConfig "linux")).1.Root) :=
  ⟨by decide, by rfl,
    C6_working_dir_override envWd (defaultConfig "linux") (by decide) (by rfl)⟩

/-- C7: whenever `preprocess` completes without error, the resulting
`tmpDir` is non-empty, and an input with an empty (unset) `tmpDir`
resolves it to "tmp". -/
theorem C7_tmpDir_invariant (env : Env) (c : Config)
    (h : (preprocess env c).2 = none) :
    (preprocess env c).1.TmpDir ≠ "" ∧
    (c.TmpDir = "" → (preprocess env c).1.TmpDir = "tmp") := by
  rw [preprocess_eq] at h ⊢
  split at h
  · simp at h
  next hcond =>
    rw [if_neg hcond]
    cases hr : (stepExpandRoot (effCwd env) env.home (stepWdOverride env c)).2 with
    | some e => rw [hr] at h; simp at h
    | none =>
      dsimp only
      constructor
      · simpa using
          stepTmpDir_ne ((stepExpandRoot (effCwd env) env.home (stepWdOverride env c)).1)
      · intro hT
        simp only [stepBin_TmpDir, adapt_TmpDir, stepExcludeDir_TmpDir]
        exact stepTmpDir_of_empty _ (by simp [hT])

/-- C7 witness: a configuration loaded with an empty `tmp_dir`
finalizes with `tmpDir = "tmp"`. -/
theorem C7_tmpDir_invariant_witness :
    (preprocess envNoFile cfgFullBin).2 = none ∧
    ((preprocess envNoFile cfgFullBin).1.TmpDir ≠ "" ∧
     (cfgFullBin.TmpDir = "" → (preprocess envNoFile cfgFullBin).1.TmpDir = "tmp")) :=
  ⟨by rfl, C7_tmpDir_invariant envNoFile cfgFullBin (by rfl)⟩

/-- C8: a loaded configuration whose `build.stop_on_error` is `false`
(unset or explicitly so — the zero-value merge cannot tell) finalizes
with `stopOnError = true`, the default, on every platform. -/
theorem C8_stopOnError_zero_merge (env : Env) (loaded : Config)
    (h : loaded.Build.StopOnError = false) :
    (preprocess env (mergeConfig loaded (defaultConfig env.goos))).1.Build.StopOnError
      = true := by
  rw [preprocess_StopOnError]
  show mergeBool loaded.Build.StopOnError (defaultConfig env.goos).Build.StopOnError = true
  rw [h, defaultConfig_StopOnError]
  rfl

/-- C8 witness: the all-zero load (stop_on_error false) resolves to
`stopOnError = true`. -/
theorem C8_stopOnError_zero_merge_witness :
    zeroConfig.Build.StopOnError = false ∧
    (preprocess envNoFile (mergeConfig zeroConfig (defaultConfig envNoFile.goos))).1.Build.StopOnError
      = true :=
  ⟨rfl, C8_stopOnError_zero_merge envNoFile zeroConfig rfl⟩

/-- C1 counterexample: the load `loadedSub` holds the non-zero value
"sub" for the field `root`, resolution completes without error, yet
the finalized root is "/proj/sub", not the loaded value — the claim as
stated is false for the fields `preprocess` rewrites after the merge. -/
theorem C1_merge_precedence_counterexample :
    loadedSub.Root = "sub" ∧ loadedSub.Root ≠ "" ∧
    (initConfig envProj "cfg.toml").2 = none ∧
    (initConfig envProj "cfg.toml").1.map Config.Root = some "/proj/sub" ∧
    ("/proj/sub" : String) ≠ "sub" :=
  ⟨rfl, by decide, rfl, rfl, by decide⟩

/-- C1 (amended): merge precedence holds field-by-field at the merge
stage — each merged field equals the loaded value when non-zero and
the Default Provider's value when zero; the later `preprocess` pass
preserves the non-path fields (`build.cmd`, `build.delay` among them);
and the spec's example — a load holding only `build.cmd = "make"` —
finalizes with `build.cmd = "make"` and `build.delay = 1000`. The
finalized value equals the loaded one only for fields `preprocess`
does not rewrite (it rewrites `root`, `build.bin`, `build.excludeDir`
and an empty `tmpDir`). -/
theorem C1_merge_precedence_amended :
    (∀ loaded dft : Config,
      (mergeConfig loaded dft).Root
          = (if loaded.Root = "" then dft.Root else loaded.Root) ∧
      (mergeConfig loaded dft).TmpDir
          = (if loaded.TmpDir = "" then dft.TmpDir else loaded.TmpDir) ∧
      (mergeConfig loaded dft).Build.Cmd
          = (if loaded.Build.Cmd = "" then dft.Build.Cmd else loaded.Build.Cmd) ∧
      (mergeConfig loaded dft).Build.Bin
          = (if loaded.Build.Bin = "" then dft.Build.Bin else loaded.Build.Bin) ∧
      (mergeConfig loaded dft).Build.FullBin
          = (if loaded.Build.FullBin = "" then dft.Build.FullBin
             else loaded.Build.FullBin) ∧
      (mergeConfig loaded dft).Build.Log
          = (if loaded.Build.Log = "" then dft.Build.Log else loaded.Build.Log) ∧
      (mergeConfig loaded dft).Build.IncludeExt
          = (if loaded.Build.IncludeExt = [] then dft.Build.IncludeExt
             else loaded.Build.IncludeExt) ∧
      (mergeConfig loaded dft).Build.ExcludeDir
          = (if loaded.Build.ExcludeDir = [] then dft.Build.ExcludeDir
             else loaded.Build.ExcludeDir) ∧
      (mergeConfig loaded dft).Build.IncludeDir
          = (if loaded.Build.IncludeDir = [] then dft.Build.IncludeDir
             else loaded.Build.IncludeDir) ∧
      (mergeConfig loaded dft).Build.ExcludeFile
          = (if loaded.Build.ExcludeFile = [] then dft.Build.ExcludeFile
             else loaded.Build.ExcludeFile) ∧
      (mergeConfig loaded dft).Build.Delay
          = (if loaded.Build.Delay = 0 then dft.Build.Delay else loaded.Build.Delay) ∧
      (mergeConfig loaded dft).Build.StopOnError
          = (if loaded.Build.StopOnError = false then dft.Build.StopOnError
             else loaded.Build.StopOnError) ∧
      (mergeConfig loaded dft).Build.SendInterrupt
          = (if loaded.Build.SendInterrupt = false then dft.Build.SendInterrupt
             else loaded.Build.SendInterrupt) ∧
      (mergeConfig loaded dft).Build.KillDelay
          = (if loaded.Build.KillDelay = 0 then dft.Build.KillDelay
             else loaded.Build.KillDelay) ∧
      (mergeConfig loaded dft).Color.Main
          = (if loaded.Color.Main = "" then dft.Color.Main else loaded.Color.Main) ∧
      (mergeConfig loaded dft).Color.Watcher
          = (if loaded.Color.Watcher = "" then dft.Color.Watcher
             else loaded.Color.Watcher) ∧
      (mergeConfig loaded dft).Color.Build
          = (if loaded.Color.Build = "" then dft.Color.Build else loaded.Color.Build) ∧
      (mergeConfig loaded dft).Color.Runner
          = (if loaded.Color.Runner = "" then dft.Color.Runner
             else loaded.Color.Runner) ∧
      (mergeConfig loaded dft).Color.App
          = (if loaded.Color.App = "" then dft.Color.App else loaded.Color.App) ∧
      (mergeConfig loaded dft).Log.AddTime
          = (if loaded.Log.AddTime = false then dft.Log.AddTime
             else loaded.Log.AddTime) ∧
      (mergeConfig loaded dft).Misc.CleanOnExit
          = (if loaded.Misc.CleanOnExit = false then dft.Misc.CleanOnExit
             else loaded.Misc.CleanOnExit)) ∧
    (∀ (env : Env) (c : Config),
      (preprocess env c).1.Build.Cmd = c.Build.Cmd ∧
      (preprocess env c).1.Build.Delay = c.Build.Delay) ∧
    (∀ env : Env,
      (preprocess env (mergeConfig onlyCmdCfg (defaultConfig env.goos))).1.Build.Cmd
          = "make" ∧
      (preprocess env (mergeConfig onlyCmdCfg (defaultConfig env.goos))).1.Build.Delay
          = 1000) := by
  refine ⟨fun loaded dft => ?_,
    fun env c => ⟨preprocess_Cmd env c, preprocess_Delay env c⟩,
    fun env => ⟨?_, ?_⟩⟩
  · exact ⟨rfl, rfl, rfl, rfl, rfl, rfl, rfl, rfl, rfl, rfl, rfl, rfl, rfl, rfl,
      rfl, rfl, rfl, rfl, rfl, rfl, rfl⟩
  · rw [preprocess_Cmd]
    rfl
  · rw [preprocess_Delay]
    simp [mergeConfig, mergeBuild, mergeInt, onlyCmdCfg, zeroConfig, defaultConfig_Delay]
